import Mathlib

/-!
Shallow embedding of `src/spotify_playlist_exporter.user.js`, a Tampermonkey
userscript that scrolls a virtualized Spotify tracklist until the row count
stabilizes, extracts "Title - Artists" lines from the materialized rows, and
exports them (clipboard write, file download, user alerts).

The embedding models:
  * `scrollToLoadAllSongs` (lines 39-65): a loop of at most 100 rounds with
    state `lastCount` (initially 0) and `sameCountTimes` (initially 0); each
    round triggers a scroll, waits, re-counts the rows, and breaks once
    `sameCountTimes > 3`.  Row counts observed over time are modelled as a
    function `obs : Nat → Nat` (`obs r` = count observed at round `r`,
    rounds numbered from 1).
  * `extractSongs` (lines 68-84): per-row extraction with a try/catch; a row
    whose reading raises is dropped, a missing title element yields the
    sentinel "[Unknown Title]", artist link texts are trimmed and joined
    with ", ".  JavaScript's `Array.prototype.join` is modelled by
    `joinWith` and `String.prototype.trim` by `jsTrim`, which strips
    leading and trailing whitespace characters.
  * `exportSongs` (lines 87-119): the full export cycle, modelled as the
    sequence of observable events it performs (button busy/idle, scroll
    triggers, alerts, clipboard write, download).
  * `addExportButton` (lines 20-36): button injection, modelled on an
    abstract header state counting how many trigger buttons are present.
-/

namespace SpotifyExporter

/-- Observable events performed by one export cycle, in order. -/
inductive Event where
  | scrollTrigger
  | alertContainerNotFound
  | extracted (songs : List String)
  | alertNoSongs
  | clipboardWrite (text : String)
  | download (text : String)
  | alertSuccess (count : Nat)
  | setBusy
  | setIdle
deriving DecidableEq, Repr

/-- One materialized tracklist row (`div[data-testid="tracklist-row"]`).
`title?` is the text content of the title element when that element exists
(`row.querySelector('div[aria-colindex="2"] div[dir="auto"]')`), `artists`
the text contents of the artist links, and `throws` records whether reading
this row raises an exception (caught by the per-row `try/catch`). -/
structure Row where
  title? : Option String
  artists : List String
  throws : Bool
deriving DecidableEq, Repr

/-- JavaScript `String.prototype.trim()`: strip leading and trailing
whitespace characters. -/
def jsTrim (s : String) : String :=
  String.mk (((s.data.dropWhile Char.isWhitespace).reverse.dropWhile
    Char.isWhitespace).reverse)

/-- JavaScript `Array.prototype.join(sep)`. -/
def joinWith (sep : String) : List String → String
  | [] => ""
  | [a] => a
  | a :: b :: rest => a ++ sep ++ joinWith sep (b :: rest)

/-- Body of the `rows.forEach` callback in `extractSongs` on the success
path: title text trimmed, or the sentinel when the title element is absent;
artist texts trimmed and joined with ", ". -/
def rowLine (r : Row) : String :=
  (match r.title? with
    | some t => jsTrim t
    | none => "[Unknown Title]") ++ " - " ++ joinWith ", " (r.artists.map jsTrim)

/-- One iteration of the `rows.forEach` in `extractSongs`: the `try/catch`
drops the row entirely when reading it raises, otherwise pushes its line. -/
def extractRow (r : Row) : Option String :=
  if r.throws then none else some (rowLine r)

/-- The function `extractSongs` (lines 68-84): visits the materialized rows
in DOM order and collects the lines of the rows whose reading succeeds. -/
def extractSongs (rows : List Row) : List String :=
  rows.filterMap extractRow

/-- The value of `lastCount` entering round `r + 1`: `0` before the first
round (initialization `let lastCount = 0`), otherwise the count observed at
round `r`. -/
def obsAt (obs : Nat → Nat) (r : Nat) : Nat :=
  if r = 0 then 0 else obs r

/-- The value of `sameCountTimes` after round `r`, had the loop run `r`
rounds without breaking: incremented when the count observed at round `r`
equals `lastCount`, reset to `0` otherwise. -/
def sameStreak (obs : Nat → Nat) : Nat → Nat
  | 0 => 0
  | r + 1 => if obs (r + 1) = obsAt obs r then sameStreak obs r + 1 else 0

/-- The scroll loop of `scrollToLoadAllSongs` (lines 51-64).  `fuel` is the
number of iterations the `for` loop may still run (`100 - i`), `last` and
`streak` the current `lastCount` and `sameCountTimes`, and `i` the number of
rounds already performed.  Each executed round emits one `scrollTrigger`
(the `scrollTo` call); the loop breaks as soon as the incremented
`sameCountTimes` exceeds 3. -/
def scrollLoopAux (obs : Nat → Nat) : Nat → Nat → Nat → Nat → List Event
  | 0, _, _, _ => []
  | fuel + 1, last, streak, i =>
    Event.scrollTrigger ::
      (if obs (i + 1) = last then
        (if streak + 1 > 3 then []
         else scrollLoopAux obs fuel (obs (i + 1)) (streak + 1) (i + 1))
       else scrollLoopAux obs fuel (obs (i + 1)) 0 (i + 1))

/-- The events of the scroll loop run from its initial state
(`lastCount = 0`, `sameCountTimes = 0`, at most 100 iterations). -/
def scrollEvents (obs : Nat → Nat) : List Event :=
  scrollLoopAux obs 100 0 0 0

/-- Number of polling rounds (equivalently, scroll triggers) the loop
performs on observation sequence `obs`. -/
def scrollRounds (obs : Nat → Nat) : Nat :=
  (scrollEvents obs).length

/-- Reference description of the round at which the loop stops: scanning
rounds `i + 1, i + 2, ...` with `fuel` rounds remaining, the loop stops at
the first round whose streak exceeds 3, or after the last round when fuel
runs out. -/
def stopRoundAux (obs : Nat → Nat) : Nat → Nat → Nat
  | 0, i => i
  | fuel + 1, i =>
    if sameStreak obs (i + 1) > 3 then i + 1 else stopRoundAux obs fuel (i + 1)

/-- The round at which the full loop stops. -/
def stopRound (obs : Nat → Nat) : Nat :=
  stopRoundAux obs 100 0

/-- Page state visible to `exportSongs`: whether one of the three scroll
container selectors matches, and the materialized rows at extraction time. -/
structure Page where
  hasContainer : Bool
  rows : List Row
deriving Repr

/-- The function `scrollToLoadAllSongs` (lines 39-65): when no container
selector matches it alerts and returns having performed zero rounds;
otherwise it runs the scroll loop. -/
def scrollPhase (hasContainer : Bool) (obs : Nat → Nat) : List Event :=
  if hasContainer then scrollEvents obs else [Event.alertContainerNotFound]

/-- Tail of `exportSongs` after the call to `extractSongs`: either the
empty-result path (`songs.length === 0`: alert, restore button) or the
success path (clipboard write, download of the newline-joined text, success
alert with the count, restore button). -/
def exportPost (songs : List String) : List Event :=
  if songs.length = 0 then
    [Event.alertNoSongs, Event.setIdle]
  else
    [Event.clipboardWrite (joinWith "\n" songs),
     Event.download (joinWith "\n" songs),
     Event.alertSuccess songs.length,
     Event.setIdle]

/-- The function `exportSongs` (lines 87-119) as its sequence of observable
events: set the button busy, run `scrollToLoadAllSongs`, call
`extractSongs` (unconditionally), then run the tail on the extracted
songs. -/
def exportTrace (p : Page) (obs : Nat → Nat) : List Event :=
  Event.setBusy ::
    (scrollPhase p.hasContainer obs ++
      Event.extracted (extractSongs p.rows) :: exportPost (extractSongs p.rows))

/-- Abstract header state for `addExportButton`: how many trigger buttons
with id `export-songs-btn` are in the document, and whether a header element
matches. -/
structure HeaderState where
  buttonCount : Nat
  hasHeader : Bool
deriving DecidableEq, Repr

/-- The function `addExportButton` (lines 20-36): returns immediately when
`document.getElementById('export-songs-btn')` finds a button, returns when
no header matches, otherwise appends one button to the header. -/
def addExportButton (s : HeaderState) : HeaderState :=
  if s.buttonCount ≠ 0 then s
  else if s.hasHeader then { s with buttonCount := s.buttonCount + 1 }
  else s

/-! Helper lemmas on the scroll loop. -/

lemma sameStreak_succ (obs : Nat → Nat) (r : Nat) :
    sameStreak obs (r + 1) =
      if obs (r + 1) = obsAt obs r then sameStreak obs r + 1 else 0 := rfl

lemma obsAt_succ (obs : Nat → Nat) (r : Nat) : obsAt obs (r + 1) = obs (r + 1) := by
  simp [obsAt]

lemma sameStreak_step (obs : Nat → Nat) (r : Nat) (hr : r ≠ 0)
    (h : obs (r + 1) = obs r) : sameStreak obs (r + 1) = sameStreak obs r + 1 := by
  rw [sameStreak_succ, if_pos]
  rw [obsAt, if_neg hr]
  exact h

lemma le_stopRoundAux (obs : Nat → Nat) : ∀ fuel i, i ≤ stopRoundAux obs fuel i
  | 0, i => Nat.le_refl i
  | fuel + 1, i => by
    rw [stopRoundAux]
    split
    · exact Nat.le_succ i
    · exact Nat.le_trans (Nat.le_succ i) (le_stopRoundAux obs fuel (i + 1))

lemma stopRoundAux_le (obs : Nat → Nat) : ∀ fuel i, stopRoundAux obs fuel i ≤ i + fuel
  | 0, i => Nat.le_refl i
  | fuel + 1, i => by
    rw [stopRoundAux]
    split
    · omega
    · have := stopRoundAux_le obs fuel (i + 1)
      omega

/-- The length of the loop's event list, started from the consistent state
after `i` completed rounds, is the number of rounds still to be executed. -/
lemma scrollLoopAux_length (obs : Nat → Nat) :
    ∀ fuel i, (scrollLoopAux obs fuel (obsAt obs i) (sameStreak obs i) i).length
      = stopRoundAux obs fuel i - i := by
  intro fuel
  induction fuel with
  | zero => intro i; simp [scrollLoopAux, stopRoundAux]
  | succ fuel ih =>
    intro i
    rw [scrollLoopAux, stopRoundAux]
    by_cases h : obs (i + 1) = obsAt obs i
    · rw [if_pos h]
      have hs : sameStreak obs (i + 1) = sameStreak obs i + 1 := by
        rw [sameStreak_succ, if_pos h]
      by_cases h3 : sameStreak obs i + 1 > 3
      · rw [if_pos h3, if_pos (hs ▸ h3)]
        simp
      · rw [if_neg h3, if_neg (hs ▸ h3)]
        have hrec := ih (i + 1)
        rw [obsAt_succ] at hrec
        rw [hs] at hrec
        have hge := le_stopRoundAux obs fuel (i + 1)
        simp [hrec]
        omega
    · rw [if_neg h]
      have hs : sameStreak obs (i + 1) = 0 := by
        rw [sameStreak_succ, if_neg h]
      rw [if_neg (by omega : ¬ sameStreak obs (i + 1) > 3)]
      have hrec := ih (i + 1)
      rw [obsAt_succ, hs] at hrec
      have hge := le_stopRoundAux obs fuel (i + 1)
      simp [hrec]
      omega

lemma scrollRounds_eq_stopRound (obs : Nat → Nat) :
    scrollRounds obs = stopRound obs := by
  have h := scrollLoopAux_length obs 100 0
  have h0 : obsAt obs 0 = 0 := rfl
  have h1 : sameStreak obs 0 = 0 := rfl
  rw [h0, h1] at h
  simpa [scrollRounds, scrollEvents, stopRound] using h

/-- When round `r` is the first whose streak exceeds 3 and it is in range,
the scan stops exactly at round `r`. -/
lemma stopRoundAux_eq_of_first (obs : Nat → Nat) :
    ∀ fuel i r, i < r → r ≤ i + fuel → 3 < sameStreak obs r →
      (∀ r', i < r' → r' < r → sameStreak obs r' ≤ 3) →
      stopRoundAux obs fuel i = r
  | 0, i, r, hir, hrf, _, _ => absurd hrf (by omega)
  | fuel + 1, i, r, hir, hrf, hr3, hmin => by
    rw [stopRoundAux]
    by_cases h : sameStreak obs (i + 1) > 3
    · have : r = i + 1 := by
        by_contra hne
        exact absurd h (by simpa using hmin (i + 1) (by omega) (by omega))
      rw [if_pos h, this]
    · have hlt : i + 1 < r := by
        rcases Nat.lt_or_ge (i + 1) r with h' | h'
        · exact h'
        · have : r = i + 1 := by omega
          exact absurd (this ▸ hr3) h
      rw [if_neg h]
      exact stopRoundAux_eq_of_first obs fuel (i + 1) r hlt (by omega) hr3
        (fun r' h1 h2 => hmin r' (by omega) h2)

/-- When no round in range has a streak exceeding 3, the scan exhausts all
its fuel. -/
lemma stopRoundAux_eq_of_never (obs : Nat → Nat) :
    ∀ fuel i, (∀ r, i < r → r ≤ i + fuel → sameStreak obs r ≤ 3) →
      stopRoundAux obs fuel i = i + fuel
  | 0, i, _ => rfl
  | fuel + 1, i, h => by
    rw [stopRoundAux]
    rw [if_neg (by have := h (i + 1) (by omega) (by omega); omega)]
    have := stopRoundAux_eq_of_never obs fuel (i + 1)
      (fun r h1 h2 => h r (by omega) (by omega))
    omega

/-- Every event the scroll loop emits is a scroll trigger. -/
lemma scrollLoopAux_all_trigger (obs : Nat → Nat) :
    ∀ fuel last streak i e, e ∈ scrollLoopAux obs fuel last streak i →
      e = Event.scrollTrigger
  | 0, _, _, _, _, h => absurd h (List.not_mem_nil _)
  | fuel + 1, last, streak, i, e, h => by
    rw [scrollLoopAux] at h
    rcases List.mem_cons.1 h with h' | h'
    · exact h'
    · split at h'
      · split at h'
        · exact absurd h' (List.not_mem_nil _)
        · exact scrollLoopAux_all_trigger obs fuel _ _ _ e h'
      · exact scrollLoopAux_all_trigger obs fuel _ _ _ e h'

lemma scrollEvents_all_trigger (obs : Nat → Nat) :
    ∀ e ∈ scrollEvents obs, e = Event.scrollTrigger :=
  fun e he => scrollLoopAux_all_trigger obs 100 0 0 0 e he

/-! Helper lemmas on the export trace tail. -/

lemma exportPost_no_trigger (songs : List String) :
    Event.scrollTrigger ∉ exportPost songs := by
  rw [exportPost]
  split <;> simp

lemma exportPost_no_extracted (songs s : List String) :
    Event.extracted s ∉ exportPost songs := by
  rw [exportPost]
  split <;> simp

lemma exportPost_shape (songs : List String) :
    ∃ mid, exportPost songs = mid ++ [Event.setIdle] ∧
      Event.setBusy ∉ mid ∧ Event.setIdle ∉ mid := by
  rw [exportPost]
  split
  · exact ⟨[Event.alertNoSongs], by simp⟩
  · exact ⟨[Event.clipboardWrite (joinWith "\n" songs),
      Event.download (joinWith "\n" songs),
      Event.alertSuccess songs.length], by simp⟩

lemma scrollPhase_events (hc : Bool) (obs : Nat → Nat) :
    ∀ e ∈ scrollPhase hc obs,
      e = Event.scrollTrigger ∨ e = Event.alertContainerNotFound := by
  rw [scrollPhase]
  split
  · exact fun e he => Or.inl (scrollEvents_all_trigger obs e he)
  · intro e he
    simp at he
    exact Or.inr he

lemma mem_exportTrace (p : Page) (obs : Nat → Nat) (e : Event) :
    e ∈ exportTrace p obs ↔
      e = Event.setBusy ∨ e ∈ scrollPhase p.hasContainer obs ∨
        e = Event.extracted (extractSongs p.rows) ∨
        e ∈ exportPost (extractSongs p.rows) := by
  simp [exportTrace]

lemma extractSongs_eq_filter_map (rows : List Row) :
    extractSongs rows = (rows.filter (fun r => !r.throws)).map rowLine := by
  induction rows with
  | nil => rfl
  | cons r rs ih =>
    by_cases h : r.throws
    · simp [extractSongs, List.filterMap_cons, extractRow, h, List.filter_cons] at *
      exact ih
    · simp [extractSongs, List.filterMap_cons, extractRow, h, List.filter_cons] at *
      exact ih

/-! The claims. -/

/-- C3: on a snapshot of rows of which some are well-formed and the others
raise during per-row reading, `extractSongs` returns exactly one record per
well-formed row, in DOM order: it is the ordered map of `rowLine` over the
non-raising rows, so its length is the number of well-formed rows and a
raising row never aborts the remaining rows. -/
theorem extractAll_skips_only_throwing_rows (rows : List Row) :
    extractSongs rows = (rows.filter (fun r => !r.throws)).map rowLine ∧
    (extractSongs rows).length = (rows.filter (fun r => !r.throws)).length := by
  refine ⟨extractSongs_eq_filter_map rows, ?_⟩
  rw [extractSongs_eq_filter_map rows]
  simp

/-- C5: a well-formed row with title `T` and artist fields `[A1, A2]`
serializes to exactly `"T - A1, A2"`, and with zero artist fields the record
is still produced and is exactly `"T - "` (for already-trimmed field
texts). -/
theorem serialization_canonical (t a1 a2 : String)
    (ht : jsTrim t = t) (h1 : jsTrim a1 = a1) (h2 : jsTrim a2 = a2) :
    extractSongs [⟨some t, [a1, a2], false⟩] = [t ++ " - " ++ (a1 ++ ", " ++ a2)] ∧
    extractSongs [⟨some t, [], false⟩] = [t ++ " - "] := by
  constructor
  · simp [extractSongs, List.filterMap_cons, extractRow, rowLine, joinWith, ht, h1, h2]
  · simp [extractSongs, List.filterMap_cons, extractRow, rowLine, joinWith, ht]

/-- Witness for C5 at `T = "Song"`, `A1 = "A"`, `A2 = "B"`. -/
theorem serialization_canonical_witness :
    extractSongs [⟨some "Song", ["A", "B"], false⟩] = ["Song - A, B"] ∧
    extractSongs [⟨some "Song", [], false⟩] = ["Song - "] :=
  serialization_canonical "Song" "A" "B" (by decide) (by decide) (by decide)

/-- C6: a row whose title element is absent but which otherwise reads
without raising yields the sentinel title `"[Unknown Title]"` together with
the joined artist string, while any row whose reading raises is dropped
entirely. -/
theorem missing_title_sentinel_and_throw_drops_row (as : List String) (r : Row)
    (hr : r.throws = true) :
    extractSongs [⟨none, as, false⟩]
      = ["[Unknown Title]" ++ " - " ++ joinWith ", " (as.map jsTrim)] ∧
    extractSongs [r] = [] := by
  constructor
  · simp [extractSongs, List.filterMap_cons, extractRow, rowLine]
  · simp [extractSongs, List.filterMap_cons, extractRow, hr]

/-- Witness for C6 at a row with artists `["A"]` and no title, and a
raising row that even has a title and artists. -/
theorem missing_title_sentinel_and_throw_drops_row_witness :
    extractSongs [⟨none, ["A"], false⟩] = ["[Unknown Title] - A"] ∧
    extractSongs [⟨some "T", ["A"], true⟩] = [] := by
  have h := missing_title_sentinel_and_throw_drops_row ["A"] ⟨some "T", ["A"], true⟩ rfl
  exact ⟨by rw [h.1]; decide, h.2⟩

/-- C2 counterexample: on a page where no scroll container selector matches
but one well-formed row is materialized, the export cycle still extracts the
row and performs the clipboard write, the download and the success alert, so
the claim that no extraction, no clipboard write and no file download occur
after `ContainerNotFound` is false on the code. -/
theorem export_without_container_still_extracts :
    Event.extracted ["T - A"]
        ∈ exportTrace ⟨false, [⟨some "T", ["A"], false⟩]⟩ (fun _ => 0) ∧
    Event.clipboardWrite "T - A"
        ∈ exportTrace ⟨false, [⟨some "T", ["A"], false⟩]⟩ (fun _ => 0) ∧
    Event.download "T - A"
        ∈ exportTrace ⟨false, [⟨some "T", ["A"], false⟩]⟩ (fun _ => 0) ∧
    Event.alertSuccess 1
        ∈ exportTrace ⟨false, [⟨some "T", ["A"], false⟩]⟩ (fun _ => 0) := by
  decide

/-- C2 as amended: when no container selector matches, the cycle performs
zero scroll rounds and reports the container alert, but `extractSongs` is
still invoked on whatever rows are materialized; only when that extraction
is empty do the clipboard write, the download and the success alert all not
occur, the no-songs notice firing instead. -/
theorem containerNotFound_zero_rounds (p : Page) (obs : Nat → Nat)
    (h : p.hasContainer = false) :
    Event.alertContainerNotFound ∈ exportTrace p obs ∧
    Event.scrollTrigger ∉ exportTrace p obs ∧
    exportTrace p obs = Event.setBusy :: Event.alertContainerNotFound ::
      Event.extracted (extractSongs p.rows) :: exportPost (extractSongs p.rows) ∧
    (extractSongs p.rows = [] →
      (∀ s, Event.clipboardWrite s ∉ exportTrace p obs) ∧
      (∀ s, Event.download s ∉ exportTrace p obs) ∧
      (∀ n, Event.alertSuccess n ∉ exportTrace p obs) ∧
      Event.alertNoSongs ∈ exportTrace p obs) := by
  have htr : exportTrace p obs = Event.setBusy :: Event.alertContainerNotFound ::
      Event.extracted (extractSongs p.rows) :: exportPost (extractSongs p.rows) := by
    simp [exportTrace, scrollPhase, h]
  refine ⟨by simp [htr], by rw [htr]; simp [exportPost_no_trigger], htr, ?_⟩
  intro he
  rw [htr, he]
  simp [exportPost]

/-- Witness for C2's amended theorem on a container-less page with no
materialized rows. -/
theorem containerNotFound_zero_rounds_witness :
    Event.alertContainerNotFound ∈ exportTrace ⟨false, []⟩ (fun _ => 0) ∧
    Event.scrollTrigger ∉ exportTrace ⟨false, []⟩ (fun _ => 0) ∧
    Event.alertNoSongs ∈ exportTrace ⟨false, []⟩ (fun _ => 0) := by
  have h := containerNotFound_zero_rounds ⟨false, []⟩ (fun _ => 0) rfl
  exact ⟨h.1, h.2.1, (h.2.2.2 rfl).2.2.2⟩

/-- C9: the button-injection routine is idempotent — whenever the trigger
button already exists it returns the page unchanged, and iterating it any
number of times from a page with at most one button leaves at most one
button present. -/
theorem addExportButton_idempotent (s : HeaderState) (h : s.buttonCount ≠ 0) :
    addExportButton s = s ∧
    ∀ s' : HeaderState, s'.buttonCount ≤ 1 →
      ∀ n, (addExportButton^[n] s').buttonCount ≤ 1 := by
  have step : ∀ t : HeaderState, t.buttonCount ≤ 1 →
      (addExportButton t).buttonCount ≤ 1 := by
    intro t ht
    rw [addExportButton]
    split
    · exact ht
    · split
      · simpa using by omega
      · exact ht
  refine ⟨by rw [addExportButton, if_pos h], ?_⟩
  intro s' hs' n
  induction n generalizing s' with
  | zero => simpa using hs'
  | succ n ih =>
    rw [Function.iterate_succ_apply]
    exact ih (addExportButton s') (step s' hs')

/-- Witness for C9 at a page that already has the button and three
iterations starting from a clean page. -/
theorem addExportButton_idempotent_witness :
    addExportButton ⟨1, true⟩ = ⟨1, true⟩ ∧
    (addExportButton^[3] ⟨0, true⟩).buttonCount ≤ 1 :=
  ⟨(addExportButton_idempotent ⟨1, true⟩ (by decide)).1,
   (addExportButton_idempotent ⟨1, true⟩ (by decide)).2 ⟨0, true⟩ (by decide) 3⟩

lemma sameStreak_gt_of_const (obs : Nat → Nat) (a : Nat) (ha : 1 ≤ a)
    (hconst : ∀ j, a ≤ j → j ≤ a + 4 → obs j = obs a) :
    3 < sameStreak obs (a + 4) := by
  have e1 : obs (a + 1) = obs a := hconst (a + 1) (by omega) (by omega)
  have e2 : obs (a + 2) = obs (a + 1) :=
    (hconst (a + 2) (by omega) (by omega)).trans
      (hconst (a + 1) (by omega) (by omega)).symm
  have e3 : obs (a + 3) = obs (a + 2) :=
    (hconst (a + 3) (by omega) (by omega)).trans
      (hconst (a + 2) (by omega) (by omega)).symm
  have e4 : obs (a + 4) = obs (a + 3) :=
    (hconst (a + 4) (by omega) (by omega)).trans
      (hconst (a + 3) (by omega) (by omega)).symm
  have s1 : sameStreak obs (a + 1) = sameStreak obs a + 1 :=
    sameStreak_step obs a (by omega) e1
  have s2 : sameStreak obs (a + 2) = sameStreak obs (a + 1) + 1 :=
    sameStreak_step obs (a + 1) (by omega) e2
  have s3 : sameStreak obs (a + 3) = sameStreak obs (a + 2) + 1 :=
    sameStreak_step obs (a + 2) (by omega) e3
  have s4 : sameStreak obs (a + 4) = sameStreak obs (a + 3) + 1 :=
    sameStreak_step obs (a + 3) (by omega) e4
  omega

lemma sameStreak_const_of_ne (c : Nat) (hc : c ≠ 0) :
    ∀ r, sameStreak (fun _ => c) r = r - 1
  | 0 => rfl
  | 1 => by
    rw [show (1 : Nat) = 0 + 1 from rfl, sameStreak_succ, if_neg]
    simpa [obsAt] using hc
  | r + 2 => by
    have hstep : sameStreak (fun _ => c) (r + 1 + 1)
        = sameStreak (fun _ => c) (r + 1) + 1 :=
      sameStreak_step (fun _ => c) (r + 1) (by omega) rfl
    have hrec := sameStreak_const_of_ne c hc (r + 1)
    rw [show r + 2 = r + 1 + 1 from rfl, hstep, hrec]
    omega

/-- C1: for every observation sequence that stays constant over five
consecutive polls (more than the four unchanged polls the stability
threshold requires) ending within the 100-round cap, the loop terminates at
the first poll whose unchanged-count streak exceeds 3, emitting that many
scroll triggers and none afterwards, after which exactly one full
extraction runs; in particular the sequence whose counts are equal at
rounds 5 through 9 stops after round 9. -/
theorem collector_stops_at_first_streak_over_threshold
    (obs : Nat → Nat) (rows : List Row) (a : Nat) (ha : 1 ≤ a) (hcap : a + 4 ≤ 100)
    (hconst : ∀ j, a ≤ j → j ≤ a + 4 → obs j = obs a) :
    (∃ r, r ≤ a + 4 ∧ 3 < sameStreak obs r ∧
      (∀ p, p < r → sameStreak obs p ≤ 3) ∧
      scrollRounds obs = r ∧ (scrollEvents obs).length = r ∧
      (∀ e ∈ scrollEvents obs, e = Event.scrollTrigger) ∧
      exportTrace ⟨true, rows⟩ obs =
        Event.setBusy :: (scrollEvents obs ++
          Event.extracted (extractSongs rows) :: exportPost (extractSongs rows)) ∧
      Event.scrollTrigger ∉ exportPost (extractSongs rows) ∧
      (∀ s, Event.extracted s ∉ exportPost (extractSongs rows))) ∧
    scrollRounds (fun n => if n ≤ 4 then 8 * n else 37) = 9 := by
  constructor
  · have hex : ∃ r, 3 < sameStreak obs r :=
      ⟨a + 4, sameStreak_gt_of_const obs a ha hconst⟩
    refine ⟨Nat.find hex, Nat.find_min' hex (sameStreak_gt_of_const obs a ha hconst),
      Nat.find_spec hex, fun p hp => Nat.le_of_not_lt (Nat.find_min hex hp), ?_, ?_, ?_, ?_, ?_, ?_⟩
    · have hr0 : 0 < Nat.find hex := by
        rcases Nat.eq_zero_or_pos (Nat.find hex) with h0 | h0
        · have := Nat.find_spec hex
          rw [h0] at this
          simp [sameStreak] at this
        · exact h0
      rw [scrollRounds_eq_stopRound, stopRound]
      exact stopRoundAux_eq_of_first obs 100 0 (Nat.find hex) hr0
        (by have := Nat.find_min' hex (sameStreak_gt_of_const obs a ha hconst); omega)
        (Nat.find_spec hex)
        (fun p _ hp => Nat.le_of_not_lt (Nat.find_min hex hp))
    · have hr0 : 0 < Nat.find hex := by
        rcases Nat.eq_zero_or_pos (Nat.find hex) with h0 | h0
        · have := Nat.find_spec hex
          rw [h0] at this
          simp [sameStreak] at this
        · exact h0
      have : scrollRounds obs = Nat.find hex := by
        rw [scrollRounds_eq_stopRound, stopRound]
        exact stopRoundAux_eq_of_first obs 100 0 (Nat.find hex) hr0
          (by have := Nat.find_min' hex (sameStreak_gt_of_const obs a ha hconst); omega)
          (Nat.find_spec hex)
          (fun p _ hp => Nat.le_of_not_lt (Nat.find_min hex hp))
      simpa [scrollRounds] using this
    · exact scrollEvents_all_trigger obs
    · simp [exportTrace, scrollPhase]
    · exact exportPost_no_trigger (extractSongs rows)
    · exact fun s => exportPost_no_extracted (extractSongs rows) s
  · decide

/-- Witness for C1: the sequence with counts 8, 16, 24, 32 at rounds 1-4
and 37 from round 5 on is constant over rounds 5 through 9, and the loop
stops after round 9. -/
theorem collector_stops_at_first_streak_over_threshold_witness :
    (∃ r, r ≤ 5 + 4 ∧ 3 < sameStreak (fun n => if n ≤ 4 then 8 * n else 37) r ∧
      (∀ p, p < r → sameStreak (fun n => if n ≤ 4 then 8 * n else 37) p ≤ 3) ∧
      scrollRounds (fun n => if n ≤ 4 then 8 * n else 37) = r ∧
      (scrollEvents (fun n => if n ≤ 4 then 8 * n else 37)).length = r ∧
      (∀ e ∈ scrollEvents (fun n => if n ≤ 4 then 8 * n else 37),
        e = Event.scrollTrigger) ∧
      exportTrace ⟨true, []⟩ (fun n => if n ≤ 4 then 8 * n else 37) =
        Event.setBusy :: (scrollEvents (fun n => if n ≤ 4 then 8 * n else 37) ++
          Event.extracted (extractSongs []) :: exportPost (extractSongs [])) ∧
      Event.scrollTrigger ∉ exportPost (extractSongs []) ∧
      (∀ s, Event.extracted s ∉ exportPost (extractSongs []))) ∧
    scrollRounds (fun n => if n ≤ 4 then 8 * n else 37) = 9 :=
  collector_stops_at_first_streak_over_threshold
    (fun n => if n ≤ 4 then 8 * n else 37) [] 5 (by omega) (by omega)
    (by
      intro j hj1 hj2
      show (if j ≤ 4 then 8 * j else 37) = (if (5 : Nat) ≤ 4 then 8 * 5 else 37)
      rw [if_neg (by omega), if_neg (by omega)])

/-- C4: when no round within the 100-round cap ever reaches an
unchanged-count streak above 3, the loop performs exactly 100 rounds and
stops without error, the cycle then extracting the materialized rows. -/
theorem collector_caps_at_max_iterations (obs : Nat → Nat) (rows : List Row)
    (h : ∀ r ≤ 100, sameStreak obs r ≤ 3) :
    scrollRounds obs = 100 ∧
    exportTrace ⟨true, rows⟩ obs =
      Event.setBusy :: (scrollEvents obs ++
        Event.extracted (extractSongs rows) :: exportPost (extractSongs rows)) := by
  constructor
  · rw [scrollRounds_eq_stopRound, stopRound]
    exact stopRoundAux_eq_of_never obs 100 0 (fun r _ hr => h r (by omega))
  · simp [exportTrace, scrollPhase]

/-- Witness for C4 at the strictly growing observation sequence
`obs n = n`, whose streak never leaves 0. -/
theorem collector_caps_at_max_iterations_witness :
    scrollRounds (fun n => n) = 100 ∧
    exportTrace ⟨true, []⟩ (fun n => n) =
      Event.setBusy :: (scrollEvents (fun n => n) ++
        Event.extracted (extractSongs []) :: exportPost (extractSongs [])) :=
  collector_caps_at_max_iterations (fun n => n) [] (by decide)

/-- C10: because `lastCount` starts at 0, a first poll observing 0 rows
already counts toward the streak: the constantly-0 sequence stops after 4
rounds while a constantly-nonzero sequence stops after 5 rounds. -/
theorem zero_count_terminates_one_round_earlier :
    scrollRounds (fun _ => 0) = 4 ∧
    ∀ c : Nat, c ≠ 0 → scrollRounds (fun _ => c) = 5 := by
  constructor
  · decide
  · intro c hc
    rw [scrollRounds_eq_stopRound, stopRound]
    refine stopRoundAux_eq_of_first (fun _ => c) 100 0 5 (by omega) (by omega) ?_ ?_
    · rw [sameStreak_const_of_ne c hc 5]
      omega
    · intro p _ hp
      rw [sameStreak_const_of_ne c hc p]
      omega

/-- Witness for C10's nonzero part at the constant count 37. -/
theorem zero_count_terminates_one_round_earlier_witness :
    scrollRounds (fun _ => 37) = 5 :=
  zero_count_terminates_one_round_earlier.2 37 (by decide)

/-- C7: a cycle whose extraction yields zero records ends in the distinct
no-songs notice with no clipboard write, no download and no success notice,
while a cycle whose extraction is nonempty produces the success notice
carrying the nonzero final count and no no-songs notice. -/
theorem empty_vs_success_outcomes (p : Page) (obs : Nat → Nat) :
    (extractSongs p.rows = [] →
      Event.alertNoSongs ∈ exportTrace p obs ∧
      (∀ s, Event.clipboardWrite s ∉ exportTrace p obs) ∧
      (∀ s, Event.download s ∉ exportTrace p obs) ∧
      (∀ n, Event.alertSuccess n ∉ exportTrace p obs)) ∧
    (extractSongs p.rows ≠ [] →
      Event.alertSuccess (extractSongs p.rows).length ∈ exportTrace p obs ∧
      (extractSongs p.rows).length ≠ 0 ∧
      Event.alertNoSongs ∉ exportTrace p obs) := by
  constructor
  · intro he
    have hpost : exportPost (extractSongs p.rows)
        = [Event.alertNoSongs, Event.setIdle] := by
      rw [exportPost, if_pos (by rw [he]; rfl)]
    refine ⟨?_, ?_, ?_, ?_⟩
    · rw [mem_exportTrace]
      right; right; right
      rw [hpost]
      simp
    · intro s hs
      rcases (mem_exportTrace p obs _).1 hs with h' | h' | h' | h'
      · exact absurd h' (by simp)
      · rcases scrollPhase_events p.hasContainer obs _ h' with h'' | h'' <;> simp at h''
      · exact absurd h' (by simp)
      · rw [hpost] at h'
        simp at h'
    · intro s hs
      rcases (mem_exportTrace p obs _).1 hs with h' | h' | h' | h'
      · exact absurd h' (by simp)
      · rcases scrollPhase_events p.hasContainer obs _ h' with h'' | h'' <;> simp at h''
      · exact absurd h' (by simp)
      · rw [hpost] at h'
        simp at h'
    · intro n hn
      rcases (mem_exportTrace p obs _).1 hn with h' | h' | h' | h'
      · exact absurd h' (by simp)
      · rcases scrollPhase_events p.hasContainer obs _ h' with h'' | h'' <;> simp at h''
      · exact absurd h' (by simp)
      · rw [hpost] at h'
        simp at h'
  · intro he
    have hlen : (extractSongs p.rows).length ≠ 0 := by
      simpa [List.length_eq_zero] using he
    have hpost : exportPost (extractSongs p.rows)
        = [Event.clipboardWrite (joinWith "\n" (extractSongs p.rows)),
           Event.download (joinWith "\n" (extractSongs p.rows)),
           Event.alertSuccess (extractSongs p.rows).length,
           Event.setIdle] := by
      rw [exportPost, if_neg hlen]
    refine ⟨?_, hlen, ?_⟩
    · rw [mem_exportTrace]
      right; right; right
      rw [hpost]
      simp
    · intro hn
      rcases (mem_exportTrace p obs _).1 hn with h' | h' | h' | h'
      · exact absurd h' (by simp)
      · rcases scrollPhase_events p.hasContainer obs _ h' with h'' | h'' <;> simp at h''
      · exact absurd h' (by simp)
      · rw [hpost] at h'
        simp at h'

/-- Witness for C7 at an empty page and at a page holding one well-formed
row. -/
theorem empty_vs_success_outcomes_witness :
    Event.alertNoSongs ∈ exportTrace ⟨true, []⟩ (fun _ => 0) ∧
    Event.alertSuccess 1
      ∈ exportTrace ⟨true, [⟨some "T", ["A"], false⟩]⟩ (fun _ => 0) ∧
    Event.alertNoSongs
      ∉ exportTrace ⟨true, [⟨some "T", ["A"], false⟩]⟩ (fun _ => 0) := by
  refine ⟨((empty_vs_success_outcomes ⟨true, []⟩ (fun _ => 0)).1 rfl).1, ?_, ?_⟩
  · have h := ((empty_vs_success_outcomes ⟨true, [⟨some "T", ["A"], false⟩]⟩
      (fun _ => 0)).2 (by decide)).1
    simpa using h
  · exact ((empty_vs_success_outcomes ⟨true, [⟨some "T", ["A"], false⟩]⟩
      (fun _ => 0)).2 (by decide)).2.2

/-- C8: every export cycle sets the trigger control busy as its first step
and restores it as its last, with neither state change occurring anywhere
in between, on both the empty-result and the success path — so the control
is busy for the whole cycle and no second run can start meanwhile. -/
theorem busy_until_cycle_completes (p : Page) (obs : Nat → Nat) :
    ∃ mid, exportTrace p obs = Event.setBusy :: (mid ++ [Event.setIdle]) ∧
      Event.setBusy ∉ mid ∧ Event.setIdle ∉ mid := by
  obtain ⟨m, hm, hbusy, hidle⟩ := exportPost_shape (extractSongs p.rows)
  refine ⟨scrollPhase p.hasContainer obs ++ Event.extracted (extractSongs p.rows) :: m,
    ?_, ?_, ?_⟩
  · rw [exportTrace, hm]
    simp
  · intro h
    rcases List.mem_append.1 h with h' | h'
    · rcases scrollPhase_events p.hasContainer obs _ h' with h'' | h'' <;> simp at h''
    · rcases List.mem_cons.1 h' with h'' | h''
      · simp at h''
      · exact hbusy h''
  · intro h
    rcases List.mem_append.1 h with h' | h'
    · rcases scrollPhase_events p.hasContainer obs _ h' with h'' | h'' <;> simp at h''
    · rcases List.mem_cons.1 h' with h'' | h''
      · simp at h''
      · exact hidle h''

end SpotifyExporter
